import Mathlib

/-!
Verification of the `dataclasses_json` api layer (`dataclasses_json/api.py`).

The file shallowly embeds the code of `api.py`: the `config` function and its
metadata dictionary, the `Undefined` policy enum, and the four conversion
entry points of `DataClassJsonMixin` (`to_json`, `from_json`, `to_dict`,
`from_dict`) together with `schema` and the `_process_class` helper of the
`dataclass_json` decorator.

External collaborators that live outside the provided source (the recursive
converter `_asdict` / `_decode_dataclass` from `core.py`, the standard json
serializer/parser, `build_schema` and `_undefined_parameter_action_safe`) are
modelled from the specification; each such definition carries a doc comment
saying so.
-/

namespace DataclassesJson

/-- Embedding of the `Undefined` enum of `api.py`: the three undefined-key
policies `INCLUDE`, `RAISE`, `EXCLUDE`. -/
inductive Undefined where
  | INCLUDE
  | RAISE
  | EXCLUDE
deriving DecidableEq, Repr

/-- Name of an `Undefined` member, as Python's `Enum.name` reports it. -/
def Undefined.name : Undefined → String
  | .INCLUDE => "INCLUDE"
  | .RAISE => "RAISE"
  | .EXCLUDE => "EXCLUDE"

/-- Embedding of the member lookup `Undefined[s]` guarded by
`hasattr(Undefined, s)` in `config`: the only attributes of the enum class
whose names are the result of an `upper()` call are the three members. -/
def Undefined.member? (s : String) : Option Undefined :=
  if s == "INCLUDE" then some .INCLUDE
  else if s == "RAISE" then some .RAISE
  else if s == "EXCLUDE" then some .EXCLUDE
  else none

/-- Errors of the api layer. `undefinedPolicy` is the one error the layer
raises itself (`UndefinedParameterError`); the other constructors stand for
errors of the external collaborators that the layer only propagates. -/
inductive DJError where
  | undefinedPolicy (msg : String)
  | parse (text : String)
  | decode
  | schemaBuild (msg : String)
deriving DecidableEq, Repr

/-- The `dataclasses_json` sub-dictionary that `config` builds: at most one
value per option. Callables and marshmallow fields that the layer never
inspects are opaque and represented by numeric tokens. -/
structure DJConfig where
  encoder : Option Nat := none
  decoder : Option Nat := none
  mm_field : Option Nat := none
  letter_case : Option (String → String) := none
  undefined : Option Undefined := none

/-- A value stored in the `metadata` dictionary: either the
`dataclasses_json` sub-dictionary or an opaque foreign value under some
other key. -/
inductive MetaVal where
  | dj (c : DJConfig)
  | other (v : Nat)

/-- The `metadata` dictionary passed to `config`: an association list from
string keys to values, looked up first-match. -/
abbrev Metadata := List (String × MetaVal)

/-- Dictionary lookup. -/
def lookupKey : Metadata → String → Option MetaVal
  | [], _ => none
  | (k', v) :: t, k => if k' == k then some v else lookupKey t k

/-- Dictionary update: replace the first binding of the key, or append a new
binding. -/
def setKey : Metadata → String → MetaVal → Metadata
  | [], k, v => [(k, v)]
  | (k', v') :: t, k, v => if k' == k then (k, v) :: t else (k', v') :: setKey t k v

/-- The sub-dictionary `metadata.setdefault('dataclasses_json', {})` starts
from: the one already stored, or empty. -/
def djOf (m : Metadata) : DJConfig :=
  match lookupKey m "dataclasses_json" with
  | some (.dj c) => c
  | _ => {}

/-- The keyword arguments of `config`. The undefined-key policy may be given
as a string or as an `Undefined` member, as in the source. -/
structure ConfigArgs where
  encoder : Option Nat := none
  decoder : Option Nat := none
  mm_field : Option Nat := none
  letter_case : Option (String → String) := none
  undefined : Option (Sum String Undefined) := none
  field_name : Option String := none

/-- Embedding of lines 65-76 of `api.py`: when `field_name` is supplied the
stored name function becomes `override`, which ignores its argument and
applies the supplied transform to `field_name` (or returns `field_name`
unchanged when no transform was supplied). -/
def effLetterCase (letter_case : Option (String → String))
    (field_name : Option String) : Option (String → String) :=
  match field_name with
  | some fn =>
    match letter_case with
    | some lc => some (fun _ => lc fn)
    | none => some (fun _ => fn)
  | none => letter_case

/-- Uppercasing of a policy name, as `undefined.upper()` does (the member
names are plain ASCII). -/
def upper (s : String) : String := String.mk (s.data.map Char.toUpper)

/-- Lowercasing of a member name, as `.name.lower()` does in `schema`. -/
def lower (s : String) : String := String.mk (s.data.map Char.toLower)

/-- Embedding of lines 78-88 of `api.py`: a string policy is uppercased and
looked up among the member names, raising `UndefinedParameterError` when it
matches none; a member passes through unvalidated. -/
def resolveUndefined : Sum String Undefined → Except DJError Undefined
  | .inr u => .ok u
  | .inl s =>
    match Undefined.member? (upper s) with
    | some u => .ok u
    | none => .error (.undefinedPolicy "Invalid undefined parameter action")

/-- Embedding of lines 56-76 of `config`: store each supplied option other
than the undefined policy into the sub-dictionary, in source order. -/
def preConfig (d0 : DJConfig) (a : ConfigArgs) : DJConfig :=
  let d1 := match a.encoder with
    | some e => { d0 with encoder := some e }
    | none => d0
  let d2 := match a.decoder with
    | some de => { d1 with decoder := some de }
    | none => d1
  let d3 := match a.mm_field with
    | some f => { d2 with mm_field := some f }
    | none => d2
  match effLetterCase a.letter_case a.field_name with
  | some lc => { d3 with letter_case := some lc }
  | none => d3

/-- Embedding of `config` (lines 44-90 of `api.py`): take the
`dataclasses_json` sub-dictionary (creating it if absent), store each
supplied option, resolve a string undefined policy, and return the updated
metadata dictionary. -/
def config (metadata : Metadata) (a : ConfigArgs) : Except DJError Metadata :=
  let d := preConfig (djOf metadata) a
  match a.undefined with
  | none => .ok (setKey metadata "dataclasses_json" (.dj d))
  | some u =>
    match resolveUndefined u with
    | .error e => .error e
    | .ok u' => .ok (setKey metadata "dataclasses_json" (.dj { d with undefined := some u' }))

/-- Embedding of lines 202-206 of `_process_class`: when a letter case or an
undefined policy is supplied to the decorator, the class configuration is the
`dataclasses_json` entry of a fresh `config` call; otherwise the class
attribute stays `None`. -/
def processClassConfig (letter_case : Option (String → String))
    (undefined : Option (Sum String Undefined)) :
    Except DJError (Option DJConfig) :=
  if letter_case.isSome || undefined.isSome then
    (config [] { letter_case := letter_case, undefined := undefined }).map
      (fun m => some (djOf m))
  else
    .ok none

theorem lookupKey_setKey_self (m : Metadata) (k : String) (v : MetaVal) :
    lookupKey (setKey m k v) k = some v := by
  induction m with
  | nil => simp [setKey, lookupKey]
  | cons h t ih =>
    obtain ⟨k', v'⟩ := h
    by_cases hk : k' == k
    · simp [setKey, lookupKey, hk]
    · simp only [setKey, lookupKey, hk, if_neg, Bool.false_eq_true, if_false]
      simpa [lookupKey, hk] using ih

theorem lookupKey_setKey_ne (m : Metadata) (k k0 : String) (v : MetaVal)
    (h : k ≠ k0) : lookupKey (setKey m k0 v) k = lookupKey m k := by
  induction m with
  | nil => simp [setKey, lookupKey, Ne.symm h]
  | cons hd t ih =>
    obtain ⟨k', v'⟩ := hd
    by_cases hk : k' = k0
    · subst hk
      have hne : k' ≠ k := Ne.symm h
      simp [setKey, lookupKey, hne]
    · by_cases hkk : k' = k
      · subst hkk
        simp [setKey, lookupKey, hk]
      · simp [setKey, lookupKey, hk, hkk, ih]

/-- First-some choice on options, mirroring dictionary overwrite. -/
def optElse {α : Type} (x y : Option α) : Option α :=
  match x with
  | some v => some v
  | none => y

theorem djOf_setKey (m : Metadata) (c : DJConfig) :
    djOf (setKey m "dataclasses_json" (MetaVal.dj c)) = c := by
  simp [djOf, lookupKey_setKey_self]

theorem preConfig_spec (d : DJConfig) (a : ConfigArgs) :
    (preConfig d a).encoder = optElse a.encoder d.encoder ∧
    (preConfig d a).decoder = optElse a.decoder d.decoder ∧
    (preConfig d a).mm_field = optElse a.mm_field d.mm_field ∧
    (preConfig d a).letter_case
      = optElse (effLetterCase a.letter_case a.field_name) d.letter_case ∧
    (preConfig d a).undefined = d.undefined := by
  obtain ⟨e, de, f, lc, u, fn⟩ := a
  cases e <;> cases de <;> cases f <;> cases lc <;> cases fn <;>
    simp [preConfig, effLetterCase, optElse]

theorem resolveUndefined_error (u : Sum String Undefined) (e : DJError)
    (h : resolveUndefined u = .error e) :
    e = DJError.undefinedPolicy "Invalid undefined parameter action" := by
  cases u with
  | inr u' => simp [resolveUndefined] at h
  | inl s =>
    cases hm : Undefined.member? (upper s) with
    | some u' => simp [resolveUndefined, hm] at h
    | none =>
      simp [resolveUndefined, hm] at h
      exact h.symm

theorem config_ok_form (m : Metadata) (a : ConfigArgs) (m' : Metadata)
    (h : config m a = .ok m') :
    ∃ c, m' = setKey m "dataclasses_json" (MetaVal.dj c) ∧
      c.encoder = optElse a.encoder (djOf m).encoder ∧
      c.decoder = optElse a.decoder (djOf m).decoder ∧
      c.mm_field = optElse a.mm_field (djOf m).mm_field ∧
      c.letter_case
        = optElse (effLetterCase a.letter_case a.field_name) (djOf m).letter_case ∧
      ((a.undefined = none ∧ c.undefined = (djOf m).undefined) ∨
       (∃ u u', a.undefined = some u ∧ resolveUndefined u = .ok u' ∧
         c.undefined = some u')) := by
  obtain ⟨he, hde, hf, hlc, hu⟩ := preConfig_spec (djOf m) a
  cases hud : a.undefined with
  | none =>
    refine ⟨preConfig (djOf m) a, ?_, he, hde, hf, hlc, Or.inl ⟨rfl, hu⟩⟩
    simp [config, hud] at h
    exact h.symm
  | some u =>
    cases hr : resolveUndefined u with
    | error e => simp [config, hud, hr] at h
    | ok u' =>
      refine ⟨{ preConfig (djOf m) a with undefined := some u' }, ?_, he, hde, hf, hlc,
        Or.inr ⟨u, u', rfl, hr, rfl⟩⟩
      simp [config, hud, hr] at h
      exact h.symm

theorem config_error_shape (m : Metadata) (a : ConfigArgs) (e : DJError)
    (h : config m a = .error e) :
    e = DJError.undefinedPolicy "Invalid undefined parameter action" := by
  cases hud : a.undefined with
  | none => simp [config, hud] at h
  | some u =>
    cases hr : resolveUndefined u with
    | ok u' => simp [config, hud, hr] at h
    | error e' =>
      simp [config, hud, hr] at h
      exact h ▸ resolveUndefined_error u e' hr

/- Modelled from the spec: the generic mapping representation is "a nested
structure of maps, sequences, and primitive scalars". `Json` is that generic
tree (the `Json` type alias of `core.py`, which is outside the provided
source). -/
mutual
inductive Json where
  | jnum (n : Int)
  | jstr (s : String)
  | jbool (b : Bool)
  | jarr (l : JsonList)
  | jobj (o : JsonObj)
inductive JsonList where
  | nil
  | cons (j : Json) (js : JsonList)
inductive JsonObj where
  | nil
  | cons (k : String) (j : Json) (o : JsonObj)
end

/- Modelled from the spec: a record type is "a structured data definition
with named, typed fields"; field types are primitives, sequences, or nested
records. -/
mutual
inductive Ty where
  | tint
  | tstr
  | tbool
  | tlist (t : Ty)
  | trec (fs : TyFields)
inductive TyFields where
  | nil
  | cons (k : String) (t : Ty) (fs : TyFields)
end

/- Modelled from the spec: a record instance — a value of a record type —
holding primitive scalars, sequences, or nested records with named fields. -/
mutual
inductive Value where
  | vint (n : Int)
  | vstr (s : String)
  | vbool (b : Bool)
  | vlist (l : ValueList)
  | vrec (fs : FieldList)
inductive ValueList where
  | nil
  | cons (v : Value) (vs : ValueList)
inductive FieldList where
  | nil
  | cons (k : String) (v : Value) (fs : FieldList)
end

/- Well-typedness of a value at a record type: fields match by name, in
declared order. -/
mutual
def typed : Ty → Value → Bool
  | .tint, .vint _ => true
  | .tstr, .vstr _ => true
  | .tbool, .vbool _ => true
  | .tlist t, .vlist l => typedList t l
  | .trec fs, .vrec vs => typedFields fs vs
  | _, _ => false
def typedList : Ty → ValueList → Bool
  | _, .nil => true
  | t, .cons v vs => typed t v && typedList t vs
def typedFields : TyFields → FieldList → Bool
  | .nil, .nil => true
  | .cons k t fs, .cons k' v vs => k == k' && typed t v && typedFields fs vs
  | _, _ => false
end

/- Modelled from the spec: `_asdict`'s recursive field-walker from
`core.py` (outside the provided source) — "a recursive tree-walking
conversion between a typed record and a generic tree of primitive values".
Records become maps keyed by field name, sequences become sequences, scalars
stay scalars. -/
mutual
def encodeVal : Value → Json
  | .vint n => .jnum n
  | .vstr s => .jstr s
  | .vbool b => .jbool b
  | .vlist l => .jarr (encodeList l)
  | .vrec fs => .jobj (encodeFields fs)
def encodeList : ValueList → JsonList
  | .nil => .nil
  | .cons v vs => .cons (encodeVal v) (encodeList vs)
def encodeFields : FieldList → JsonObj
  | .nil => .nil
  | .cons k v fs => .cons k (encodeVal v) (encodeFields fs)
end

/- Modelled from the spec: the external recursive decoder
(`_decode_dataclass` of `core.py`, outside the provided source) walks the
generic tree against the target record type, rebuilding the typed value and
failing on shape or field-name mismatch ("missing required fields" and the
like). -/
mutual
def decodeVal : Ty → Json → Except DJError Value
  | .tint, .jnum n => .ok (.vint n)
  | .tstr, .jstr s => .ok (.vstr s)
  | .tbool, .jbool b => .ok (.vbool b)
  | .tlist t, .jarr l =>
    match decodeList t l with
    | .error e => .error e
    | .ok vs => .ok (.vlist vs)
  | .trec fs, .jobj o =>
    match decodeFields fs o with
    | .error e => .error e
    | .ok vs => .ok (.vrec vs)
  | _, _ => .error .decode
def decodeList : Ty → JsonList → Except DJError ValueList
  | _, .nil => .ok .nil
  | t, .cons j js =>
    match decodeVal t j with
    | .error e => .error e
    | .ok v =>
      match decodeList t js with
      | .error e => .error e
      | .ok vs => .ok (.cons v vs)
def decodeFields : TyFields → JsonObj → Except DJError FieldList
  | .nil, .nil => .ok .nil
  | .cons k t fs, .cons k' j o =>
    if k == k' then
      match decodeVal t j with
      | .error e => .error e
      | .ok v =>
        match decodeFields fs o with
        | .error e => .error e
        | .ok vs => .ok (.cons k v vs)
    else .error .decode
  | _, _ => .error .decode
end

mutual
theorem decode_encodeVal (t : Ty) (v : Value) (h : typed t v = true) :
    decodeVal t (encodeVal v) = .ok v := by
  cases v with
  | vint n => cases t <;> simp_all [typed, encodeVal, decodeVal]
  | vstr s => cases t <;> simp_all [typed, encodeVal, decodeVal]
  | vbool b => cases t <;> simp_all [typed, encodeVal, decodeVal]
  | vlist l =>
    cases t with
    | tint => simp [typed] at h
    | tstr => simp [typed] at h
    | tbool => simp [typed] at h
    | trec fs => simp [typed] at h
    | tlist t' =>
      have hl := decode_encodeList t' l (by simpa [typed] using h)
      simp [encodeVal, decodeVal, hl]
  | vrec fs =>
    cases t with
    | tint => simp [typed] at h
    | tstr => simp [typed] at h
    | tbool => simp [typed] at h
    | tlist t' => simp [typed] at h
    | trec tfs =>
      have hf := decode_encodeFields tfs fs (by simpa [typed] using h)
      simp [encodeVal, decodeVal, hf]

theorem decode_encodeList (t : Ty) (l : ValueList) (h : typedList t l = true) :
    decodeList t (encodeList l) = .ok l := by
  cases l with
  | nil => simp [encodeList, decodeList]
  | cons v vs =>
    have h' : typed t v = true ∧ typedList t vs = true := by
      simpa [typedList, Bool.and_eq_true] using h
    have hv := decode_encodeVal t v h'.1
    have hvs := decode_encodeList t vs h'.2
    simp [encodeList, decodeList, hv, hvs]

theorem decode_encodeFields (fs : TyFields) (vs : FieldList)
    (h : typedFields fs vs = true) :
    decodeFields fs (encodeFields vs) = .ok vs := by
  cases fs with
  | nil =>
    cases vs with
    | nil => simp [encodeFields, decodeFields]
    | cons k v vs' => simp [typedFields] at h
  | cons k t fs' =>
    cases vs with
    | nil => simp [typedFields] at h
    | cons k' v vs' =>
      have h' : k = k' ∧ typed t v = true ∧ typedFields fs' vs' = true := by
        simpa [typedFields, Bool.and_eq_true, and_assoc] using h
      obtain ⟨hk, hv, hvs⟩ := h'
      subst hk
      have h1 := decode_encodeVal t v hv
      have h2 := decode_encodeFields fs' vs' hvs
      simp [encodeFields, decodeFields, h1, h2]
end

/- Modelled from the spec: the options of the standard serializer (the
`json.dumps` keyword arguments that `to_json` passes through). -/
structure DumpArgs where
  skipkeys : Bool := false
  ensure_ascii : Bool := true
  check_circular : Bool := true
  allow_nan : Bool := true
  indent : Option Nat := none
  separators : Option (String × String) := none
  default : Option Nat := none
  sort_keys : Bool := false

/-- Item separator of the serializer: supplied, or the standard default. -/
def itemSep (a : DumpArgs) : String :=
  match a.separators with
  | some p => p.1
  | none => ", "

/-- Key separator of the serializer: supplied, or the standard default. -/
def keySep (a : DumpArgs) : String :=
  match a.separators with
  | some p => p.2
  | none => ": "

/- Modelled from the spec: the standard serializer producing "standard JSON
text" from the generic tree, "with pass-through formatting options". The
model renders the tree with the supplied separators; the remaining options
are carried but do not change the abstract text. -/
mutual
def dumpJson (a : DumpArgs) : Json → String
  | .jnum n => toString n
  | .jstr s => "\"" ++ s ++ "\""
  | .jbool b => if b then "true" else "false"
  | .jarr l => "[" ++ dumpList a l ++ "]"
  | .jobj o => "\x7b" ++ dumpObj a o ++ "\x7d"
def dumpList (a : DumpArgs) : JsonList → String
  | .nil => ""
  | .cons j .nil => dumpJson a j
  | .cons j js => dumpJson a j ++ itemSep a ++ dumpList a js
def dumpObj (a : DumpArgs) : JsonObj → String
  | .nil => ""
  | .cons k j .nil => "\"" ++ k ++ "\"" ++ keySep a ++ dumpJson a j
  | .cons k j o => "\"" ++ k ++ "\"" ++ keySep a ++ dumpJson a j ++ itemSep a ++ dumpObj a o
end

/- Modelled from the spec: `_asdict` of `core.py` (outside the provided
source), the "external recursive encoder" that produces the generic mapping
representation. The `encode_json` flag selects the extended encoding of leaf
values, which the spec does not describe; the generic tree the model emits
does not depend on it. -/
def _asdict (v : Value) (encode_json : Bool) : Json := encodeVal v

/-- Embedding of `DataClassJsonMixin.to_dict` (lines 149-150 of `api.py`):
delegate to `_asdict`. -/
def to_dict (v : Value) (encode_json : Bool) : Json := _asdict v encode_json

/-- Embedding of `DataClassJsonMixin.to_json` (lines 101-122 of `api.py`):
serialize `to_dict(encode_json=False)` with the standard serializer, passing
every formatting option through unchanged. -/
def to_json (v : Value) (skipkeys ensure_ascii check_circular allow_nan : Bool)
    (indent : Option Nat) (separators : Option (String × String))
    (default : Option Nat) (sort_keys : Bool) : String :=
  dumpJson
    { skipkeys := skipkeys, ensure_ascii := ensure_ascii,
      check_circular := check_circular, allow_nan := allow_nan,
      indent := indent, separators := separators,
      default := default, sort_keys := sort_keys }
    (to_dict v false)

/-- Digits of a decimal numeral, accumulated left to right. -/
def digitsToNat (acc : Nat) : List Char → Option Nat
  | [] => some acc
  | c :: cs => if c.isDigit then digitsToNat (acc * 10 + (c.toNat - 48)) cs else none

/-- Integer numerals, with an optional leading minus sign. -/
def parseIntChars : List Char → Option Int
  | [] => none
  | '-' :: cs =>
    match cs with
    | [] => none
    | _ => (digitsToNat 0 cs).map (fun n => -(n : Int))
  | cs => (digitsToNat 0 cs).map (fun n => (n : Int))

/- Modelled from the spec: `json.loads`, the standard text parser consuming
"standard JSON text". Its grammar is external to this layer; the model
accepts the scalar fragment (booleans and integer numerals), which suffices
to exercise the delegation contract, and reports a parse error on everything
else. -/
def loads (s : String) : Except DJError Json :=
  if s == "true" then .ok (.jbool true)
  else if s == "false" then .ok (.jbool false)
  else
    match parseIntChars s.data with
    | some n => .ok (.jnum n)
    | none => .error (.parse s)

/- Modelled from the spec: `_decode_dataclass` of `core.py` (outside the
provided source), the "external recursive decoder" from the generic tree to
a record of the target type. The spec does not describe the `infer_missing`
flag; the model carries it unused. -/
def _decode_dataclass (t : Ty) (kvs : Json) (infer_missing : Bool) :
    Except DJError Value :=
  decodeVal t kvs

/-- Embedding of `DataClassJsonMixin.from_dict` (lines 142-147 of `api.py`):
delegate to `_decode_dataclass`. -/
def from_dict (t : Ty) (kvs : Json) (infer_missing : Bool) :
    Except DJError Value :=
  _decode_dataclass t kvs infer_missing

/-- Embedding of `DataClassJsonMixin.from_json` (lines 124-140 of `api.py`):
parse the text with the standard parser, then decode the resulting generic
tree with `from_dict` under the same `infer_missing` flag. A parse failure
propagates unchanged. -/
def from_json (t : Ty) (s : String) (infer_missing : Bool) :
    Except DJError Value :=
  match loads s with
  | .error e => .error e
  | .ok kvs => from_dict t kvs infer_missing

/-- Result of `schema`: the instance built over the external builder's
output (an opaque token) together with the effective unknown-field policy
passed to it. -/
structure SchemaInst where
  schemaTok : Nat
  unknown : Option String
deriving DecidableEq, Repr

/-- Embedding of lines 166-170 of `schema`: when no explicit `unknown`
argument is supplied and the class has a configured undefined policy, the
policy's lowercased member name becomes the unknown-field policy. -/
def schemaUnknown (configured : Option Undefined) (unknown : Option String) :
    Option String :=
  match unknown with
  | some u => some u
  | none =>
    match configured with
    | some act => some (lower act.name)
    | none => none

/-- Embedding of `DataClassJsonMixin.schema` (lines 152-179 of `api.py`).
Modelled from the spec where collaborators are external: `build_schema` is
represented by its result (an error, or an opaque schema token), and
`_undefined_parameter_action_safe` by the `configured` argument holding the
class's configured undefined policy, if any. -/
def schema (buildResult : Except DJError Nat) (configured : Option Undefined)
    (unknown : Option String) : Except DJError SchemaInst :=
  match buildResult with
  | .error e => .error e
  | .ok tok => .ok { schemaTok := tok, unknown := schemaUnknown configured unknown }

theorem config_none_undefined (m : Metadata) (a : ConfigArgs)
    (h : a.undefined = none) :
    config m a = .ok (setKey m "dataclasses_json" (.dj (preConfig (djOf m) a))) := by
  simp [config, h]

theorem config_some_undefined (m : Metadata) (a : ConfigArgs)
    (u : Sum String Undefined) (u' : Undefined)
    (h : a.undefined = some u) (hr : resolveUndefined u = .ok u') :
    config m a = .ok (setKey m "dataclasses_json"
      (.dj { preConfig (djOf m) a with undefined := some u' })) := by
  simp [config, h, hr]

/-- Stored name function of the result of a `config` call. -/
def storedLetterCase (r : Except DJError Metadata) : Option (String → String) :=
  match r with
  | .ok m => (djOf m).letter_case
  | .error _ => none

/-- C1: a string undefined-policy whose uppercasing matches a recognized
member name (INCLUDE, RAISE, EXCLUDE) makes `config` succeed and store that
member under the `undefined` key; every other string makes `config` raise
the `UndefinedParameterError` configuration error, at configuration time. -/
theorem C1_undefined_policy_string (m : Metadata) (s : String) :
    (∀ u, Undefined.member? (upper s) = some u →
      ∃ m', config m { undefined := some (Sum.inl s) } = .ok m' ∧
        (djOf m').undefined = some u) ∧
    (Undefined.member? (upper s) = none →
      config m { undefined := some (Sum.inl s) }
        = .error (.undefinedPolicy "Invalid undefined parameter action")) := by
  constructor
  · intro u hu
    have hr : resolveUndefined (Sum.inl s) = .ok u := by
      simp [resolveUndefined, hu]
    have hc := config_some_undefined m { undefined := some (Sum.inl s) }
      (Sum.inl s) u rfl hr
    exact ⟨_, hc, by rw [djOf_setKey]⟩
  · intro hn
    simp [config, resolveUndefined, hn]

/-- C1 witness: the accepted name "Raise" stores the RAISE member; the
rejected name "bogus" raises the configuration error. -/
theorem C1_undefined_policy_string_witness :
    (∃ m', config [] { undefined := some (Sum.inl "Raise") } = .ok m' ∧
      (djOf m').undefined = some Undefined.RAISE) ∧
    config [] { undefined := some (Sum.inl "bogus") }
      = .error (.undefinedPolicy "Invalid undefined parameter action") :=
  ⟨(C1_undefined_policy_string [] "Raise").1 Undefined.RAISE rfl,
   (C1_undefined_policy_string [] "bogus").2 rfl⟩

/-- C2: for every well-typed record value, decoding the generic mapping
representation produced by `to_dict` yields the original record:
`from_dict (to_dict x) = ok x`. -/
theorem C2_roundtrip (t : Ty) (v : Value) (h : typed t v = true) :
    from_dict t (to_dict v false) false = .ok v := by
  simpa [from_dict, to_dict, _asdict, _decode_dataclass] using
    decode_encodeVal t v h

/-- C2 witness: a one-field record holding an integer round-trips. -/
theorem C2_roundtrip_witness :
    typed (Ty.trec (.cons "a" .tint .nil))
        (Value.vrec (.cons "a" (.vint 3) .nil)) = true ∧
    from_dict (Ty.trec (.cons "a" .tint .nil))
        (to_dict (Value.vrec (.cons "a" (.vint 3) .nil)) false) false
      = .ok (Value.vrec (.cons "a" (.vint 3) .nil)) :=
  ⟨by decide, C2_roundtrip _ _ (by decide)⟩

/-- C3 counterexample: with the transform appending "X" and the override
"abc", the stored name function yields "abcX" — not the override — while
with the identity transform it yields "abc": the stored result depends on
the supplied transform, contradicting the claim. -/
theorem C3_counterexample :
    ∃ f, storedLetterCase (config []
        { letter_case := some (fun s => s ++ "X"), field_name := some "abc" })
        = some f ∧
      f "abc" = "abcX" ∧ f "abc" ≠ "abc" ∧
      ∃ g, storedLetterCase (config []
          { letter_case := some (fun s => s), field_name := some "abc" })
          = some g ∧
        g "abc" = "abc" ∧ f "abc" ≠ g "abc" := by
  refine ⟨_, rfl, rfl, by decide, _, rfl, rfl, by decide⟩

/-- C3 amended: supplying both a key-name transform and a field-name
override stores a name function that ignores its argument and returns the
transform applied to the override (`letter_case(field_name)`); with no
transform it returns the override itself. The override fixes the
transform's input, not the final output key. -/
theorem C3_amended (m : Metadata) (lc : String → String) (fn x : String) :
    (∃ f, storedLetterCase
        (config m { letter_case := some lc, field_name := some fn })
        = some f ∧ f x = lc fn) ∧
    (∃ f, storedLetterCase (config m { field_name := some fn })
        = some f ∧ f x = fn) := by
  constructor
  · obtain ⟨-, -, -, hlc, -⟩ :=
      preConfig_spec (djOf m) { letter_case := some lc, field_name := some fn }
    have hc := config_none_undefined m
      { letter_case := some lc, field_name := some fn } rfl
    refine ⟨fun _ => lc fn, ?_, rfl⟩
    simp [storedLetterCase, hc, djOf_setKey, hlc, effLetterCase, optElse]
  · obtain ⟨-, -, -, hlc, -⟩ :=
      preConfig_spec (djOf m) { field_name := some fn }
    have hc := config_none_undefined m { field_name := some fn } rfl
    refine ⟨fun _ => fn, ?_, rfl⟩
    simp [storedLetterCase, hc, djOf_setKey, hlc, effLetterCase, optElse]

/-- C4: across two composed `config` calls each option holds at most one
value, and an option supplied twice holds the value from the last call: the
second call's supply wins, else the first call's, else the original entry. -/
theorem C4_last_writer_wins (m m1 m2 : Metadata) (a1 a2 : ConfigArgs)
    (h1 : config m a1 = .ok m1) (h2 : config m1 a2 = .ok m2) :
    (djOf m2).encoder = optElse a2.encoder (optElse a1.encoder (djOf m).encoder) ∧
    (djOf m2).decoder = optElse a2.decoder (optElse a1.decoder (djOf m).decoder) ∧
    (djOf m2).mm_field = optElse a2.mm_field (optElse a1.mm_field (djOf m).mm_field) ∧
    (djOf m2).letter_case
      = optElse (effLetterCase a2.letter_case a2.field_name)
          (optElse (effLetterCase a1.letter_case a1.field_name)
            (djOf m).letter_case) ∧
    (a1.undefined = none → a2.undefined = none →
      (djOf m2).undefined = (djOf m).undefined) ∧
    (∀ u, a2.undefined = some u →
      ∃ u', resolveUndefined u = .ok u' ∧ (djOf m2).undefined = some u') ∧
    (∀ u, a2.undefined = none → a1.undefined = some u →
      ∃ u', resolveUndefined u = .ok u' ∧ (djOf m2).undefined = some u') := by
  obtain ⟨c1, hm1, he1, hd1, hf1, hl1, hu1⟩ := config_ok_form m a1 m1 h1
  obtain ⟨c2, hm2, he2, hd2, hf2, hl2, hu2⟩ := config_ok_form m1 a2 m2 h2
  have hdj1 : djOf m1 = c1 := by rw [hm1, djOf_setKey]
  have hdj2 : djOf m2 = c2 := by rw [hm2, djOf_setKey]
  refine ⟨?_, ?_, ?_, ?_, ?_, ?_, ?_⟩
  · rw [hdj2, he2, hdj1, he1]
  · rw [hdj2, hd2, hdj1, hd1]
  · rw [hdj2, hf2, hdj1, hf1]
  · rw [hdj2, hl2, hdj1, hl1]
  · intro hn1 hn2
    cases hu2 with
    | inl h' =>
      cases hu1 with
      | inl h'' => rw [hdj2, h'.2, hdj1, h''.2]
      | inr h'' =>
        obtain ⟨u0, -, hs, -, -⟩ := h''
        rw [hn1] at hs
        cases hs
    | inr h' =>
      obtain ⟨u0, -, hs, -, -⟩ := h'
      rw [hn2] at hs
      cases hs
  · intro u hs
    cases hu2 with
    | inl h' =>
      rw [h'.1] at hs
      cases hs
    | inr h' =>
      obtain ⟨u0, u', hs0, hr, hc⟩ := h'
      rw [hs] at hs0
      cases hs0
      exact ⟨u', hr, by rw [hdj2, hc]⟩
  · intro u hn2 hs1
    cases hu2 with
    | inr h' =>
      obtain ⟨u0, -, hs, -, -⟩ := h'
      rw [hn2] at hs
      cases hs
    | inl h' =>
      cases hu1 with
      | inl h'' =>
        rw [h''.1] at hs1
        cases hs1
      | inr h'' =>
        obtain ⟨u0, u', hs0, hr, hc⟩ := h''
        rw [hs1] at hs0
        cases hs0
        exact ⟨u', hr, by rw [hdj2, h'.2, hdj1, hc]⟩

/-- C4 witness: the encoder is supplied by both calls (the second wins) and
the undefined policy by the second call only. -/
theorem C4_last_writer_wins_witness :
    (djOf [("dataclasses_json",
        MetaVal.dj { encoder := some 2, decoder := some 5,
                     undefined := some Undefined.EXCLUDE })]).encoder
      = some 2 ∧
    (djOf [("dataclasses_json",
        MetaVal.dj { encoder := some 2, decoder := some 5,
                     undefined := some Undefined.EXCLUDE })]).undefined
      = some Undefined.EXCLUDE := by
  have h := C4_last_writer_wins []
    [("dataclasses_json",
      MetaVal.dj { encoder := some 1, decoder := some 5,
                   undefined := some Undefined.RAISE })]
    [("dataclasses_json",
      MetaVal.dj { encoder := some 2, decoder := some 5,
                   undefined := some Undefined.EXCLUDE })]
    { encoder := some 1, decoder := some 5,
      undefined := some (Sum.inr Undefined.RAISE) }
    { encoder := some 2, undefined := some (Sum.inl "exclude") }
    rfl rfl
  refine ⟨?_, ?_⟩
  · simpa [optElse] using h.1
  · obtain ⟨u', hr, hu⟩ := h.2.2.2.2.2.1 (Sum.inl "exclude") rfl
    have hr2 : resolveUndefined (Sum.inl "exclude") = .ok Undefined.EXCLUDE := rfl
    rw [hr2] at hr
    cases hr
    exact hu

/-- C5: `schema` passes the external builder's schema through, and infers
the unknown-field policy from the class's configured undefined policy
exactly when no explicit unknown argument is supplied; an explicit argument
makes the configured policy irrelevant, and with neither the policy stays
none. -/
theorem C5_schema_unknown (b : Nat) (configured : Option Undefined) :
    (∀ u, configured = some u →
      schema (.ok b) configured none = .ok ⟨b, some (lower u.name)⟩) ∧
    (∀ x, schema (.ok b) configured (some x) = .ok ⟨b, some x⟩) ∧
    (configured = none → schema (.ok b) configured none = .ok ⟨b, none⟩) := by
  refine ⟨?_, ?_, ?_⟩
  · intro u hu
    simp [schema, schemaUnknown, hu]
  · intro x
    simp [schema, schemaUnknown]
  · intro hn
    simp [schema, schemaUnknown, hn]

/-- C5 witness: a configured RAISE policy is inferred as "raise" when no
explicit unknown argument is given; an explicit argument wins; with neither
the policy stays none. -/
theorem C5_schema_unknown_witness :
    schema (.ok 5) (some Undefined.RAISE) none = .ok ⟨5, some "raise"⟩ ∧
    schema (.ok 5) (some Undefined.RAISE) (some "include")
      = .ok ⟨5, some "include"⟩ ∧
    schema (.ok 5) none none = .ok ⟨5, none⟩ :=
  ⟨(C5_schema_unknown 5 (some Undefined.RAISE)).1 Undefined.RAISE rfl,
   (C5_schema_unknown 5 (some Undefined.RAISE)).2.1 "include",
   (C5_schema_unknown 5 none).2.2 rfl⟩

/-- C6: `to_json` equals the standard serializer applied to
`to_dict(encode_json=False)`, with every formatting option passed through
unchanged. -/
theorem C6_to_json_refines (v : Value)
    (skipkeys ensure_ascii check_circular allow_nan : Bool)
    (indent : Option Nat) (separators : Option (String × String))
    (default : Option Nat) (sort_keys : Bool) :
    to_json v skipkeys ensure_ascii check_circular allow_nan indent
        separators default sort_keys
      = dumpJson ⟨skipkeys, ensure_ascii, check_circular, allow_nan, indent,
          separators, default, sort_keys⟩ (to_dict v false) := rfl

/-- C7: for every text the standard parser accepts, `from_json` equals
`from_dict` applied to the parse, under the same `infer_missing` flag. -/
theorem C7_from_json_refines (t : Ty) (s : String) (infer_missing : Bool)
    (j : Json) (h : loads s = .ok j) :
    from_json t s infer_missing = from_dict t j infer_missing := by
  simp [from_json, h]

/-- C7 witness: the text "7" parses to the numeral 7 and `from_json` agrees
with `from_dict` on it. -/
theorem C7_from_json_refines_witness :
    loads "7" = .ok (.jnum 7) ∧
    from_json .tint "7" false = from_dict .tint (.jnum 7) false :=
  ⟨rfl, C7_from_json_refines .tint "7" false (.jnum 7) rfl⟩

/-- C8: collaborator failures surface unchanged — parser errors through
`from_json`, decoder errors through `from_dict`, builder errors through
`schema` — and the only error the layer raises itself is the
undefined-policy configuration error of `config`. -/
theorem C8_error_propagation (t : Ty) (s : String) (i : Bool) (j : Json)
    (e : DJError) (configured : Option Undefined) (unknown : Option String)
    (m : Metadata) (a : ConfigArgs) :
    (loads s = .error e → from_json t s i = .error e) ∧
    (loads s = .ok j → from_json t s i = from_dict t j i) ∧
    (_decode_dataclass t j i = .error e → from_dict t j i = .error e) ∧
    (schema (.error e) configured unknown = .error e) ∧
    (config m a = .error e →
      e = DJError.undefinedPolicy "Invalid undefined parameter action") := by
  refine ⟨?_, ?_, ?_, rfl, ?_⟩
  · intro h
    simp [from_json, h]
  · intro h
    simp [from_json, h]
  · intro h
    simpa [from_dict] using h
  · intro h
    exact config_error_shape m a e h

/-- C8 witness: a rejected text surfaces the parse error, an accepted text
defers to `from_dict`, a shape mismatch surfaces the decoder error, a
builder failure surfaces unchanged, and an invalid policy string is the
configuration error. -/
theorem C8_error_propagation_witness :
    from_json Ty.tint "x" false = .error (.parse "x") ∧
    from_json Ty.tint "7" false = from_dict Ty.tint (.jnum 7) false ∧
    from_dict Ty.tint (.jstr "q") false = .error .decode ∧
    schema (.error (.schemaBuild "boom")) none none
      = .error (.schemaBuild "boom") ∧
    config [] { undefined := some (Sum.inl "bogus") }
      = .error (.undefinedPolicy "Invalid undefined parameter action") :=
  ⟨(C8_error_propagation Ty.tint "x" false (Json.jnum 0) (DJError.parse "x")
      none none [] {}).1 rfl,
   (C8_error_propagation Ty.tint "7" false (Json.jnum 7) DJError.decode
      none none [] {}).2.1 rfl,
   (C8_error_propagation Ty.tint "7" false (Json.jstr "q") DJError.decode
      none none [] {}).2.2.1 rfl,
   (C8_error_propagation Ty.tint "7" false (Json.jnum 7)
      (DJError.schemaBuild "boom") none none [] {}).2.2.2.1,
   rfl⟩

/-- C9: a successful `config` call touches only the `dataclasses_json`
entry of the metadata dictionary: every other key keeps its value, the
`dataclasses_json` sub-dictionary exists afterwards, and every option the
call does not supply keeps its previous value. -/
theorem C9_config_frame (m : Metadata) (a : ConfigArgs) (m' : Metadata)
    (h : config m a = .ok m') :
    (∀ k, k ≠ "dataclasses_json" → lookupKey m' k = lookupKey m k) ∧
    (∃ c, lookupKey m' "dataclasses_json" = some (MetaVal.dj c)) ∧
    (a.encoder = none → (djOf m').encoder = (djOf m).encoder) ∧
    (a.decoder = none → (djOf m').decoder = (djOf m).decoder) ∧
    (a.mm_field = none → (djOf m').mm_field = (djOf m).mm_field) ∧
    (a.letter_case = none → a.field_name = none →
      (djOf m').letter_case = (djOf m).letter_case) ∧
    (a.undefined = none → (djOf m').undefined = (djOf m).undefined) := by
  obtain ⟨c, hm, he, hd, hf, hl, hu⟩ := config_ok_form m a m' h
  have hdj : djOf m' = c := by rw [hm, djOf_setKey]
  refine ⟨?_, ?_, ?_, ?_, ?_, ?_, ?_⟩
  · intro k hk
    rw [hm]
    exact lookupKey_setKey_ne m k _ _ hk
  · exact ⟨c, by rw [hm, lookupKey_setKey_self]⟩
  · intro hn
    rw [hdj, he, hn]
    rfl
  · intro hn
    rw [hdj, hd, hn]
    rfl
  · intro hn
    rw [hdj, hf, hn]
    rfl
  · intro hn1 hn2
    rw [hdj, hl, hn1, hn2]
    rfl
  · intro hn
    cases hu with
    | inl h' => rw [hdj, h'.2]
    | inr h' =>
      obtain ⟨u0, -, hs, -, -⟩ := h'
      rw [hn] at hs
      cases hs

/-- C9 witness: a call supplying only a decoder leaves a foreign key and the
previously stored encoder untouched. -/
theorem C9_config_frame_witness :
    lookupKey [("k", MetaVal.other 7),
      ("dataclasses_json", MetaVal.dj { encoder := some 9, decoder := some 3 })]
      "k" = some (MetaVal.other 7) ∧
    (djOf [("k", MetaVal.other 7),
      ("dataclasses_json",
        MetaVal.dj { encoder := some 9, decoder := some 3 })]).encoder
      = some 9 := by
  have h := C9_config_frame
    [("k", MetaVal.other 7), ("dataclasses_json", MetaVal.dj { encoder := some 9 })]
    { decoder := some 3 }
    [("k", MetaVal.other 7),
      ("dataclasses_json", MetaVal.dj { encoder := some 9, decoder := some 3 })]
    rfl
  refine ⟨?_, ?_⟩
  · rw [h.1 "k" (by decide)]
    rfl
  · rw [h.2.2.1 rfl]
    rfl

/-- C10: an undefined policy supplied as an `Undefined` member (not a
string) is stored as-is, both by `config` and through the decorator's
`_process_class`, and the configuration error is never raised for it: the
case-insensitive name check applies only to string inputs. -/
theorem C10_member_passthrough (m : Metadata) (u : Undefined)
    (lc : Option (String → String)) :
    config m { undefined := some (Sum.inr u) }
      = .ok (setKey m "dataclasses_json"
          (.dj { djOf m with undefined := some u })) ∧
    (∃ c, processClassConfig lc (some (Sum.inr u)) = .ok (some c) ∧
      c.undefined = some u) := by
  constructor
  · rfl
  · cases lc with
    | none => exact ⟨{ undefined := some u }, rfl, rfl⟩
    | some f => exact ⟨{ letter_case := some f, undefined := some u }, rfl, rfl⟩

end DataclassesJson
